import Mathlib

set_option maxRecDepth 8000

/-!
Verification of the DevVisionFlow file-transfer core: a shallow embedding of
the wire codec (`src/shared/protocol.py`), the cryptographic session wrapper
(`src/shared/encryption.py`), the transmitter worker
(`src/sender/network/transmitter.py`) and the listener connection handler
(`src/receiver/network/listener.py`), together with theorems settling the
specification claims.  Byte strings are modelled as `List Nat` (each entry a
byte value), machine integers as `Nat` with explicit `% 2 ^ w` reductions.
-/

namespace DevVisionFlow

/-! ## Byte-level integer packing (`struct.pack`, `struct.unpack`) -/

/-- Big-endian 4-byte encoding of a 32-bit unsigned integer (`struct` format
`>I`). -/
def toBE32 (n : Nat) : List Nat :=
  [n / 16777216 % 256, n / 65536 % 256, n / 256 % 256, n % 256]

/-- Big-endian decoding of the first four bytes (`struct` format `>I`). -/
def fromBE32 (bs : List Nat) : Nat :=
  bs.getD 0 0 * 16777216 + bs.getD 1 0 * 65536 + bs.getD 2 0 * 256 + bs.getD 3 0

/-- Big-endian 8-byte encoding of a 64-bit unsigned integer (used for the
SHA-256 length field). -/
def toBE64 (n : Nat) : List Nat :=
  [n / 72057594037927936 % 256, n / 281474976710656 % 256,
   n / 1099511627776 % 256, n / 4294967296 % 256,
   n / 16777216 % 256, n / 65536 % 256, n / 256 % 256, n % 256]

/-- The `struct` `Ns` fixed-length byte-string field: truncate or zero-pad the
input to exactly `n` bytes. -/
def pad_trunc (n : Nat) (bs : List Nat) : List Nat :=
  bs.take n ++ List.replicate (n - bs.length) 0

theorem pad_trunc_length (n : Nat) (bs : List Nat) : (pad_trunc n bs).length = n := by
  simp only [pad_trunc, List.length_append, List.length_take, List.length_replicate]
  omega

theorem pad_trunc_self {n : Nat} {bs : List Nat} (h : bs.length = n) :
    pad_trunc n bs = bs := by
  subst h
  simp [pad_trunc, List.take_length]

/-! ## SHA-256 (the `hashlib.sha256(...).digest()` calls)

An executable model of FIPS 180-4 SHA-256 over byte lists.  Words are `Nat`
kept below `2 ^ 32` by explicit reductions. -/

/-- Reduce to a 32-bit word. -/
def w32 (n : Nat) : Nat := n % 4294967296

/-- 32-bit right rotation. -/
def rotr32 (x k : Nat) : Nat := w32 ((x >>> k) ||| (x <<< (32 - k)))

def shaCh (x y z : Nat) : Nat := (x &&& y) ^^^ ((x ^^^ 4294967295) &&& z)

def shaMaj (x y z : Nat) : Nat := (x &&& y) ^^^ (x &&& z) ^^^ (y &&& z)

def bigSigma0 (x : Nat) : Nat := rotr32 x 2 ^^^ rotr32 x 13 ^^^ rotr32 x 22

def bigSigma1 (x : Nat) : Nat := rotr32 x 6 ^^^ rotr32 x 11 ^^^ rotr32 x 25

def smallSigma0 (x : Nat) : Nat := rotr32 x 7 ^^^ rotr32 x 18 ^^^ (x >>> 3)

def smallSigma1 (x : Nat) : Nat := rotr32 x 17 ^^^ rotr32 x 19 ^^^ (x >>> 10)

/-- The 64 SHA-256 round constants. -/
def K256 : List Nat :=
  [1116352408, 1899447441, 3049323471, 3921009573, 961987163,
   1508970993, 2453635748, 2870763221, 3624381080, 310598401,
   607225278, 1426881987, 1925078388, 2162078206, 2614888103,
   3248222580, 3835390401, 4022224774, 264347078, 604807628,
   770255983, 1249150122, 1555081692, 1996064986, 2554220882,
   2821834349, 2952996808, 3210313671, 3336571891, 3584528711,
   113926993, 338241895, 666307205, 773529912, 1294757372,
   1396182291, 1695183700, 1986661051, 2177026350, 2456956037,
   2730485921, 2820302411, 3259730800, 3345764771, 3516065817,
   3600352804, 4094571909, 275423344, 430227734, 506948616,
   659060556, 883997877, 958139571, 1322822218, 1537002063,
   1747873779, 1955562222, 2024104815, 2227730452, 2361852424,
   2428436474, 2756734187, 3204031479, 3329325298]

/-- SHA-256 working state: eight 32-bit words. -/
structure Sha256State where
  a : Nat
  b : Nat
  c : Nat
  d : Nat
  e : Nat
  f : Nat
  g : Nat
  h : Nat

/-- SHA-256 initial hash value. -/
def shaInit : Sha256State :=
  ⟨1779033703, 3144134277, 1013904242, 2773480762,
   1359893119, 2600822924, 528734635, 1541459225⟩

/-- One step of message-schedule extension. -/
def scheduleStep (ws : List Nat) : List Nat :=
  let n := ws.length
  ws ++ [w32 (smallSigma1 (ws.getD (n - 2) 0) + ws.getD (n - 7) 0 +
              smallSigma0 (ws.getD (n - 15) 0) + ws.getD (n - 16) 0)]

/-- Extend the 16-word schedule by `k` further words. -/
def extendSchedule (ws : List Nat) : Nat → List Nat
  | 0 => ws
  | k + 1 => extendSchedule (scheduleStep ws) k

/-- One SHA-256 compression round with round key `k` and schedule word `w`. -/
def shaRound (st : Sha256State) (kw : Nat × Nat) : Sha256State :=
  let t1 := w32 (st.h + bigSigma1 st.e + shaCh st.e st.f st.g + kw.1 + kw.2)
  let t2 := w32 (bigSigma0 st.a + shaMaj st.a st.b st.c)
  ⟨w32 (t1 + t2), st.a, st.b, st.c, w32 (st.d + t1), st.e, st.f, st.g⟩

/-- Split a byte list into the 16 big-endian 32-bit words of one block. -/
def blockWords (block : List Nat) : List Nat :=
  (List.range 16).map fun i => fromBE32 (block.drop (4 * i))

/-- Compress one 64-byte block into the running hash state. -/
def compressBlock (st : Sha256State) (block : List Nat) : Sha256State :=
  let ws := extendSchedule (blockWords block) 48
  let r := (K256.zip ws).foldl shaRound st
  ⟨w32 (st.a + r.a), w32 (st.b + r.b), w32 (st.c + r.c), w32 (st.d + r.d),
   w32 (st.e + r.e), w32 (st.f + r.f), w32 (st.g + r.g), w32 (st.h + r.h)⟩

/-- SHA-256 padding: append `0x80`, zeros, and the 64-bit bit length. -/
def shaPad (msg : List Nat) : List Nat :=
  msg ++ [128] ++ List.replicate ((64 - (msg.length + 9) % 64) % 64) 0 ++
    toBE64 (msg.length * 8)

/-- Split a padded message into 64-byte blocks. -/
def blocksOf (l : List Nat) : List (List Nat) :=
  if h : l = [] then [] else l.take 64 :: blocksOf (l.drop 64)
termination_by l.length
decreasing_by
  simp only [List.length_drop]
  have : 0 < l.length := List.length_pos.mpr h
  omega

/-- `hashlib.sha256(msg).digest()`: the 32-byte SHA-256 digest. -/
def sha256 (msg : List Nat) : List Nat :=
  let fin := (blocksOf (shaPad msg)).foldl compressBlock shaInit
  toBE32 fin.a ++ toBE32 fin.b ++ toBE32 fin.c ++ toBE32 fin.d ++
  toBE32 fin.e ++ toBE32 fin.f ++ toBE32 fin.g ++ toBE32 fin.h

theorem sha256_length (msg : List Nat) : (sha256 msg).length = 32 := by
  simp [sha256, toBE32]

/-! ## `src/shared/constants.py` -/

def MAGIC_NUMBER_FULL : List Nat := [0x00, 0x00, 0xDE, 0x0F]

def PROTOCOL_VERSION : Nat := 0x02

def HEADER_SIZE : Nat := 256

def MSG_HANDSHAKE : Nat := 0x01

def MSG_FILE_META : Nat := 0x02

def MSG_CHUNK : Nat := 0x03

def MSG_ACK : Nat := 0x04

def MSG_ERROR : Nat := 0x05

def MSG_DONE : Nat := 0x06

def DEFAULT_CHUNK_SIZE : Nat := 65536

def LARGE_FILE_CHUNK_SIZE : Nat := 262144

def LARGE_FILE_THRESHOLD : Nat := 1073741824

def MAX_RETRIES : Nat := 3

/-! ## `src/shared/protocol.py` -/

/-- A parsed protocol header (`ProtocolHeader` dataclass). -/
structure ProtocolHeader where
  message_type : Nat
  payload_length : Nat
  payload_hash : List Nat
  version : Nat
  deriving DecidableEq, Repr

/-- `ProtocolHeader.validate_payload`: check the payload against the embedded
SHA-256 digest. -/
def ProtocolHeader.validate_payload (h : ProtocolHeader) (payload : List Nat) : Bool :=
  sha256 payload == h.payload_hash

/-- Padding after the 42 packed bytes of `>4sBBI32s`. -/
def PADDING_SIZE : Nat := HEADER_SIZE - 42

/-- `build_header`: pack magic, version, message type, payload length and
payload SHA-256 into a 256-byte header (`_HEADER_STRUCT.pack` plus zero
padding). -/
def build_header (message_type : Nat) (payload : List Nat) : List Nat :=
  MAGIC_NUMBER_FULL ++ [PROTOCOL_VERSION, message_type] ++
    toBE32 payload.length ++ pad_trunc 32 (sha256 payload) ++
    List.replicate PADDING_SIZE 0

/-- `parse_header`: reject short buffers, wrong magic, wrong version; otherwise
unpack the fixed fields (`_HEADER_STRUCT.unpack_from(data, 0)`). -/
def parse_header (data : List Nat) : Option ProtocolHeader :=
  if data.length < HEADER_SIZE then none
  else if data.take 4 ≠ MAGIC_NUMBER_FULL then none
  else if data.getD 4 0 ≠ PROTOCOL_VERSION then none
  else some ⟨data.getD 5 0, fromBE32 (data.drop 6), (data.drop 10).take 32,
             data.getD 4 0⟩

/-- `build_chunk_payload`: 4-byte big-endian chunk index followed by the raw
chunk data. -/
def build_chunk_payload (chunk_index : Nat) (data : List Nat) : List Nat :=
  toBE32 chunk_index ++ data

/-- `parse_chunk_payload`: unpack the first four bytes as the chunk index and
return the rest as the chunk data (`struct.unpack` fails on a short buffer). -/
def parse_chunk_payload (payload : List Nat) : Option (Nat × List Nat) :=
  if payload.length < 4 then none
  else some (fromBE32 (payload.take 4), payload.drop 4)

theorem fromBE32_toBE32_append (n : Nat) (rest : List Nat) (hn : n < 4294967296) :
    fromBE32 (toBE32 n ++ rest) = n := by
  simp only [toBE32, fromBE32, List.cons_append, List.nil_append,
    List.getD_cons_zero, List.getD_cons_succ]
  omega

/-- C1: for every message type byte `t` and payload `P` (of representable
length), `build_header t P` is exactly 256 bytes, and `parse_header` on that
buffer yields a header with message type `t`, payload length `|P|`, and an
embedded digest that validates `P`. -/
theorem header_build_parse_roundtrip (t : Nat) (P : List Nat)
    (ht : t < 256) (hP : P.length < 4294967296) :
    (build_header t P).length = 256 ∧
    ∃ hdr, parse_header (build_header t P) = some hdr ∧
      hdr.message_type = t ∧ hdr.payload_length = P.length ∧
      hdr.validate_payload P = true := by
  have hsha := sha256_length P
  have hpt : pad_trunc 32 (sha256 P) = sha256 P := pad_trunc_self hsha
  have hlen : (build_header t P).length = 256 := by
    simp only [build_header, List.length_append, List.length_cons, List.length_nil,
      List.length_replicate, pad_trunc_length, MAGIC_NUMBER_FULL,
      PADDING_SIZE, HEADER_SIZE, toBE32]
  refine ⟨hlen, ⟨t, P.length, sha256 P, PROTOCOL_VERSION⟩, ?_, rfl, rfl, ?_⟩
  · have hnot : ¬((build_header t P).length < HEADER_SIZE) := by
      have h256 : HEADER_SIZE = 256 := rfl
      omega
    have hm : ¬((build_header t P).take 4 ≠ MAGIC_NUMBER_FULL) := fun hc => hc rfl
    have hv : ¬((build_header t P).getD 4 0 ≠ PROTOCOL_VERSION) := fun hc => hc rfl
    unfold parse_header
    rw [if_neg hnot, if_neg hm, if_neg hv]
    have h5 : (build_header t P).getD 5 0 = t := rfl
    have h4 : (build_header t P).getD 4 0 = PROTOCOL_VERSION := rfl
    have hd6 : (build_header t P).drop 6 =
        toBE32 P.length ++ (sha256 P ++ List.replicate PADDING_SIZE 0) := by
      show toBE32 P.length ++ (pad_trunc 32 (sha256 P) ++ List.replicate PADDING_SIZE 0) =
        toBE32 P.length ++ (sha256 P ++ List.replicate PADDING_SIZE 0)
      rw [hpt]
    have hd10 : (build_header t P).drop 10 =
        sha256 P ++ List.replicate PADDING_SIZE 0 := by
      show pad_trunc 32 (sha256 P) ++ List.replicate PADDING_SIZE 0 =
        sha256 P ++ List.replicate PADDING_SIZE 0
      rw [hpt]
    rw [h5, h4, hd6, hd10, fromBE32_toBE32_append P.length _ hP,
      List.take_left' hsha]
  · simp [ProtocolHeader.validate_payload]

/-- Witness for C1 at message type `MSG_CHUNK` and payload `[104, 105]`. -/
theorem header_build_parse_roundtrip_witness :
    MSG_CHUNK < 256 ∧ ([104, 105] : List Nat).length < 4294967296 ∧
    ((build_header MSG_CHUNK [104, 105]).length = 256 ∧
     ∃ hdr, parse_header (build_header MSG_CHUNK [104, 105]) = some hdr ∧
       hdr.message_type = MSG_CHUNK ∧
       hdr.payload_length = ([104, 105] : List Nat).length ∧
       hdr.validate_payload [104, 105] = true) :=
  ⟨by decide, by decide,
   header_build_parse_roundtrip MSG_CHUNK [104, 105] (by decide) (by decide)⟩

/-- C2: `parse_header` fails exactly on buffers shorter than 256 bytes, wrong
magic, or wrong version; with valid magic and version any message-type byte
(also an unknown one) is parsed through successfully. -/
theorem parse_header_failure_iff (data : List Nat) :
    (parse_header data = none ↔
      data.length < 256 ∨ data.take 4 ≠ MAGIC_NUMBER_FULL ∨
      data.getD 4 0 ≠ PROTOCOL_VERSION) ∧
    (256 ≤ data.length → data.take 4 = MAGIC_NUMBER_FULL →
      data.getD 4 0 = PROTOCOL_VERSION →
      parse_header data =
        some ⟨data.getD 5 0, fromBE32 (data.drop 6), (data.drop 10).take 32,
              PROTOCOL_VERSION⟩) := by
  constructor
  · by_cases h1 : data.length < 256
    · simp [parse_header, HEADER_SIZE, h1]
    · by_cases h2 : data.take 4 = MAGIC_NUMBER_FULL
      · by_cases h3 : data.getD 4 0 = PROTOCOL_VERSION
        · simp [parse_header, HEADER_SIZE, h1, h2, h3]
        · simp [parse_header, HEADER_SIZE, h1, h2, h3]
      · simp [parse_header, HEADER_SIZE, h1, h2]
  · intro h1 h2 h3
    have h1' : ¬(data.length < 256) := by omega
    simp only [List.getD_eq_getElem?_getD] at h3
    simp [parse_header, HEADER_SIZE, h1', h2, h3]

/-- A 256-byte buffer with valid magic and version but unknown message type
`250`, exercising the parse-through conjunct of C2. -/
def c2SampleHeader : List Nat :=
  MAGIC_NUMBER_FULL ++ [PROTOCOL_VERSION, 250] ++ List.replicate 250 0

/-- Witness for C2 on `c2SampleHeader`. -/
theorem parse_header_failure_iff_witness :
    256 ≤ c2SampleHeader.length ∧ c2SampleHeader.take 4 = MAGIC_NUMBER_FULL ∧
    c2SampleHeader.getD 4 0 = PROTOCOL_VERSION ∧
    parse_header c2SampleHeader =
      some ⟨c2SampleHeader.getD 5 0, fromBE32 (c2SampleHeader.drop 6),
            (c2SampleHeader.drop 10).take 32, PROTOCOL_VERSION⟩ :=
  ⟨by decide, by decide, by decide,
   (parse_header_failure_iff c2SampleHeader).2 (by decide) (by decide) (by decide)⟩

/-- C9: parsing a built chunk payload returns exactly the pair of the 32-bit
chunk index and the data bytes. -/
theorem chunk_payload_roundtrip (i : Nat) (D : List Nat) (hi : i < 4294967296) :
    parse_chunk_payload (build_chunk_payload i D) = some (i, D) := by
  have h4 : (toBE32 i).length = 4 := rfl
  have hlen : (build_chunk_payload i D).length = 4 + D.length := by
    simp only [build_chunk_payload, toBE32, List.length_append, List.length_cons,
      List.length_nil]
  unfold parse_chunk_payload
  rw [if_neg (by omega)]
  rw [build_chunk_payload, List.take_left' h4, List.drop_left' h4]
  have hrt := fromBE32_toBE32_append i [] hi
  rw [List.append_nil] at hrt
  rw [hrt]

/-- Witness for C9 at index `7` and data `[1, 2, 3]`. -/
theorem chunk_payload_roundtrip_witness :
    7 < 4294967296 ∧
    parse_chunk_payload (build_chunk_payload 7 [1, 2, 3]) = some (7, [1, 2, 3]) :=
  ⟨by decide, chunk_payload_roundtrip 7 [1, 2, 3] (by decide)⟩

/-! ## `src/shared/encryption.py` -/

/-- The `EncryptionContext` wrapper object.  Key material is opaque byte
strings; the actual X25519/AES-GCM primitives live behind the `cryptography`
backend and are passed in as oracles where needed. -/
structure EncryptionContext where
  enabled : Bool
  aes_key : List Nat
  private_bytes : List Nat
  public_bytes : List Nat
  deriving DecidableEq, Repr

/-- `EncryptionContext.__init__`: `self.enabled = enabled and CRYPTO_AVAILABLE`;
a key pair is generated (here: supplied by the `keypair` oracle) only when the
resulting flag is set.  Note the constructor always returns normally — it does
not raise when the backend is unavailable. -/
def mkEncryptionContext (cryptoAvailable : Bool) (keypair : List Nat × List Nat)
    (enabled : Bool) : EncryptionContext :=
  let en := enabled && cryptoAvailable
  { enabled := en
    aes_key := []
    private_bytes := if en then keypair.1 else []
    public_bytes := if en then keypair.2 else [] }

/-- `EncryptionContext.encrypt`: identity when the flag is off, otherwise the
AES-GCM oracle. -/
def EncryptionContext.encrypt (c : EncryptionContext)
    (encrypt_chunk : List Nat → List Nat) (data : List Nat) : List Nat :=
  if c.enabled = false then data else encrypt_chunk data

/-- `EncryptionContext.decrypt`: identity when the flag is off, otherwise the
AES-GCM oracle. -/
def EncryptionContext.decrypt (c : EncryptionContext)
    (decrypt_chunk : List Nat → List Nat) (data : List Nat) : List Nat :=
  if c.enabled = false then data else decrypt_chunk data

/-- C6 evidence: constructing the session with the enable flag set while the
backend is unavailable does NOT fail — it returns a context with encryption
silently disabled, whose encrypt/decrypt are the identity (plaintext
pass-through). -/
theorem encryptionContext_silently_disables :
    ∀ (keypair : List Nat × List Nat) (oracle : List Nat → List Nat)
      (data : List Nat),
      mkEncryptionContext false keypair true = ⟨false, [], [], []⟩ ∧
      (mkEncryptionContext false keypair true).encrypt oracle data = data ∧
      (mkEncryptionContext false keypair true).decrypt oracle data = data := by
  intro keypair oracle data
  refine ⟨rfl, rfl, rfl⟩

/-! ## Transmitter chunk sizing (`_transfer_worker`, `src/sender/config.py`) -/

/-- Chunk-size selection from `_transfer_worker`: large files use
`LARGE_FILE_CHUNK_SIZE`, others the configured chunk size
(`SenderConfig.chunk_size`, default `DEFAULT_CHUNK_SIZE`). -/
def chooseChunkSize (file_size cfg_chunk_size : Nat) : Nat :=
  if file_size ≥ LARGE_FILE_THRESHOLD then LARGE_FILE_CHUNK_SIZE
  else cfg_chunk_size

/-- `total_chunks = math.ceil(file_size / chunk_size) if file_size > 0 else 1`. -/
def totalChunksOf (file_size chunk_size : Nat) : Nat :=
  if file_size > 0 then (file_size + chunk_size - 1) / chunk_size else 1

/-- C4: the chunk size is `262144` for files of at least `1073741824` bytes and
the configured size (default `65536`) otherwise; `total_chunks` is the ceiling
of `file_size / chunk_size` for non-empty files (characterised by the two
inequalities below) and `1` for empty files. -/
theorem transmitter_chunking (S cfg : Nat) (hcfg : 0 < cfg) :
    (1073741824 ≤ S → chooseChunkSize S cfg = 262144) ∧
    (S < 1073741824 → chooseChunkSize S cfg = cfg) ∧
    DEFAULT_CHUNK_SIZE = 65536 ∧
    (S = 0 → totalChunksOf S (chooseChunkSize S cfg) = 1) ∧
    (0 < S →
      S ≤ chooseChunkSize S cfg * totalChunksOf S (chooseChunkSize S cfg) ∧
      chooseChunkSize S cfg * (totalChunksOf S (chooseChunkSize S cfg) - 1) < S) := by
  have hc : 0 < chooseChunkSize S cfg := by
    unfold chooseChunkSize LARGE_FILE_CHUNK_SIZE
    split
    · omega
    · exact hcfg
  refine ⟨?_, ?_, rfl, ?_, ?_⟩
  · intro h
    simp only [chooseChunkSize, LARGE_FILE_THRESHOLD, LARGE_FILE_CHUNK_SIZE]
    rw [if_pos h]
  · intro h
    simp only [chooseChunkSize, LARGE_FILE_THRESHOLD, LARGE_FILE_CHUNK_SIZE]
    rw [if_neg (by omega)]
  · intro h
    simp [totalChunksOf, h]
  · intro hS
    have hq : totalChunksOf S (chooseChunkSize S cfg) =
        (S + chooseChunkSize S cfg - 1) / chooseChunkSize S cfg := by
      unfold totalChunksOf
      rw [if_pos hS]
    rw [hq]
    have hdm := Nat.div_add_mod (S + chooseChunkSize S cfg - 1) (chooseChunkSize S cfg)
    have hr : (S + chooseChunkSize S cfg - 1) % chooseChunkSize S cfg <
        chooseChunkSize S cfg := Nat.mod_lt _ hc
    generalize hgc : chooseChunkSize S cfg = c at *
    generalize hgq : (S + c - 1) / c = q at *
    rcases q with _ | q'
    · omega
    · have hmul : c * (q' + 1) = c * q' + c := by ring
      have hsub : (q' + 1) - 1 = q' := rfl
      rw [hsub]
      generalize hgm : c * q' = m at *
      omega

/-- Witness for C4 at `S = 100000`, `cfg = 65536`. -/
theorem transmitter_chunking_witness :
    0 < 65536 ∧
    ((1073741824 ≤ 100000 → chooseChunkSize 100000 65536 = 262144) ∧
     (100000 < 1073741824 → chooseChunkSize 100000 65536 = 65536) ∧
     DEFAULT_CHUNK_SIZE = 65536 ∧
     (100000 = 0 → totalChunksOf 100000 (chooseChunkSize 100000 65536) = 1) ∧
     (0 < 100000 →
       100000 ≤ chooseChunkSize 100000 65536 *
         totalChunksOf 100000 (chooseChunkSize 100000 65536) ∧
       chooseChunkSize 100000 65536 *
         (totalChunksOf 100000 (chooseChunkSize 100000 65536) - 1) < 100000)) :=
  ⟨by decide, transmitter_chunking 100000 65536 (by decide)⟩

/-! ## Listener save-path choice (`FileListener._unique_path`)

Paths are modelled as strings, `pathlib`'s `/` join as concatenation with
`"/"`, and filesystem existence as an oracle `ex : String → Bool`.  The
`while target.exists()` loop carries a fuel parameter; the theorems hold for
any sufficient fuel. -/

/-- Index of the last `.` in a character list (`str.rfind`), if any. -/
def lastDotIdx : List Char → Option Nat
  | [] => none
  | c :: cs =>
    match lastDotIdx cs with
    | some i => some (i + 1)
    | none => if c = '.' then some 0 else none

/-- `pathlib.PurePath.stem` of a bare filename. -/
def path_stem (name : String) : String :=
  match lastDotIdx name.toList with
  | none => name
  | some i =>
    if 0 < i ∧ i < name.toList.length - 1 then String.mk (name.toList.take i)
    else name

/-- `pathlib.PurePath.suffix` of a bare filename. -/
def path_suffix (name : String) : String :=
  match lastDotIdx name.toList with
  | none => ""
  | some i =>
    if 0 < i ∧ i < name.toList.length - 1 then String.mk (name.toList.drop i)
    else ""

/-- The candidate path `dir / f"{stem}_{counter}{suffix}"`. -/
def candidatePath (dir stem sfx : String) (counter : Nat) : String :=
  dir ++ "/" ++ stem ++ "_" ++ toString counter ++ sfx

/-- The `while target.exists()` loop of `_unique_path`, with fuel. -/
def uniqueLoopAux (ex : String → Bool) (dir stem sfx : String) :
    Nat → Nat → String
  | 0, counter => candidatePath dir stem sfx counter
  | fuel + 1, counter =>
    if ex (candidatePath dir stem sfx counter) then
      uniqueLoopAux ex dir stem sfx fuel (counter + 1)
    else candidatePath dir stem sfx counter

/-- `FileListener._unique_path`: the raw filename if it does not exist in the
receive directory, else the first `stem_k.suffix` (k = 1, 2, ...) that does
not exist. -/
def unique_path (ex : String → Bool) (dir filename : String) (fuel : Nat) :
    String :=
  if ex (dir ++ "/" ++ filename) then
    uniqueLoopAux ex dir (path_stem filename) (path_suffix filename) fuel 1
  else dir ++ "/" ++ filename

/-- C5: with no collision the raw name is chosen; with `name.ext` present the
choice is `name_1.ext`; with both `name.ext` and `name_1.ext` present it is
`name_2.ext`; in each case the chosen path does not exist at the moment of
check, so no pre-existing file is overwritten. -/
theorem unique_path_collisions (ex : String → Bool) (dir fn : String)
    (fuel : Nat) (hfuel : 2 ≤ fuel) :
    (ex (dir ++ "/" ++ fn) = false →
      unique_path ex dir fn fuel = dir ++ "/" ++ fn ∧
      ex (unique_path ex dir fn fuel) = false) ∧
    (ex (dir ++ "/" ++ fn) = true →
     ex (candidatePath dir (path_stem fn) (path_suffix fn) 1) = false →
      unique_path ex dir fn fuel = candidatePath dir (path_stem fn) (path_suffix fn) 1 ∧
      ex (unique_path ex dir fn fuel) = false) ∧
    (ex (dir ++ "/" ++ fn) = true →
     ex (candidatePath dir (path_stem fn) (path_suffix fn) 1) = true →
     ex (candidatePath dir (path_stem fn) (path_suffix fn) 2) = false →
      unique_path ex dir fn fuel = candidatePath dir (path_stem fn) (path_suffix fn) 2 ∧
      ex (unique_path ex dir fn fuel) = false) := by
  obtain ⟨f, rfl⟩ : ∃ f, fuel = f + 2 := ⟨fuel - 2, by omega⟩
  refine ⟨?_, ?_, ?_⟩
  · intro h0
    unfold unique_path
    rw [h0]
    simp [h0]
  · intro h0 h1
    unfold unique_path uniqueLoopAux
    rw [h0, h1]
    simp [h0, h1]
  · intro h0 h1 h2
    unfold unique_path uniqueLoopAux
    rw [h0, h1]
    cases f with
    | zero =>
      unfold uniqueLoopAux
      rw [h2]
      simp [h0, h1, h2]
    | succ f' =>
      unfold uniqueLoopAux
      rw [h2]
      simp [h0, h1, h2]

/-- Witness for C5: receive directory `recv` already holds `report.pdf`;
the chosen path is `recv/report_1.pdf`. -/
theorem unique_path_collisions_witness :
    2 ≤ 2 ∧
    ((fun s => s == "recv/report.pdf") ("recv" ++ "/" ++ "report.pdf") = true) ∧
    ((fun s => s == "recv/report.pdf")
      (candidatePath "recv" (path_stem "report.pdf") (path_suffix "report.pdf") 1) =
      false) ∧
    (unique_path (fun s => s == "recv/report.pdf") "recv" "report.pdf" 2 =
      candidatePath "recv" (path_stem "report.pdf") (path_suffix "report.pdf") 1 ∧
     (fun s => s == "recv/report.pdf")
       (unique_path (fun s => s == "recv/report.pdf") "recv" "report.pdf" 2) =
       false) :=
  ⟨by decide, by decide, by decide,
   (unique_path_collisions (fun s => s == "recv/report.pdf") "recv" "report.pdf" 2
     (by decide)).2.1 (by decide) (by decide)⟩

/-! ## `src/sender/network/transmitter.py`

The worker thread is modelled as a function of the file contents, the
cancellation flag sampled at each chunk boundary, and the stream of events
observed by each `_wait_for_ack` call.  Socket sends are assumed to succeed
(`sendall` failures would land in the same catch-all as a failed ACK wait);
every `_wait_for_ack` outcome is drawn from the event stream. -/

/-- `TransferProgress`: the snapshot object placed on the progress queue. -/
structure TransferProgress where
  chunks_sent : Nat
  total_chunks : Nat
  bytes_sent : Nat
  total_bytes : Nat
  done : Bool
  error : String
  deriving DecidableEq, Repr

/-- `TransferProgress.fraction`. -/
def TransferProgress.fraction (p : TransferProgress) : Rat :=
  if p.total_chunks = 0 then 0 else (p.chunks_sent : Rat) / (p.total_chunks : Rat)

/-- What one `_wait_for_ack` call observes on the socket. -/
inductive RecvEvent where
  | timeout
  | closed
  | badHeader
  | errorFrame (code : Nat) (reason : String)
  | ackFrame (success : Bool) (message : String)
  | otherFrame (msgType : Nat)
  deriving DecidableEq, Repr

/-- `_wait_for_ack`: returns the ACK message on success, or the raised
exception's message (`socket.timeout` and `ConnectionError` alike), plus the
rest of the event stream. -/
def wait_for_ack (evs : List RecvEvent) :
    Except String String × List RecvEvent :=
  match evs with
  | [] => (.error "Connection closed while reading", [])
  | e :: rest =>
    match e with
    | .timeout => (.error "timed out", rest)
    | .closed => (.error "Connection closed while reading", rest)
    | .badHeader => (.error "Invalid header received while waiting for ACK", rest)
    | .errorFrame _ reason => (.error ("Receiver error: " ++ reason), rest)
    | .otherFrame t => (.error ("Expected ACK, got message type " ++ toString t), rest)
    | .ackFrame true m => (.ok m, rest)
    | .ackFrame false m => (.error ("Receiver NACK: " ++ m), rest)

/-- The retry loop of `_send_with_retry`, counting down the remaining
attempts; returns the frames sent (message type and payload of each send) and
either the remaining event stream or the escalated error. -/
def sendWithRetryAux (msgType : Nat) (payload : List Nat) :
    Nat → List RecvEvent → List (Nat × List Nat) × Except String (List RecvEvent)
  | 0, _ => ([], .error "no attempts")
  | n + 1, evs =>
    match wait_for_ack evs with
    | (.ok _, rest) => ([(msgType, payload)], .ok rest)
    | (.error msg, rest) =>
      if n = 0 then ([(msgType, payload)], .error msg)
      else
        let r := sendWithRetryAux msgType payload n rest
        ((msgType, payload) :: r.1, r.2)

/-- `_send_with_retry`: up to `MAX_RETRIES` attempts, each resending the same
frame; only the final failed attempt escalates. -/
def send_with_retry (msgType : Nat) (payload : List Nat) (evs : List RecvEvent) :
    List (Nat × List Nat) × Except String (List RecvEvent) :=
  sendWithRetryAux msgType payload MAX_RETRIES evs

/-- How the chunk loop of `_transfer_worker` ends. -/
inductive LoopExit where
  | finished (evs : List RecvEvent)
  | cancelled
  | failed (msg : String)
  deriving Repr

/-- The chunk loop of `_transfer_worker` (`for chunk_idx in range(total_chunks)`),
recursing on the remaining iteration count and returning the progress
snapshots emitted by the loop. -/
def chunkLoop (encrypt : List Nat → List Nat) (cancel : Nat → Bool)
    (chunkSize totalChunks fileSize : Nat) :
    Nat → Nat → List Nat → Nat → List RecvEvent →
    List TransferProgress × LoopExit
  | _, 0, _, _, evs => ([], .finished evs)
  | idx, iters + 1, rest, bytesSent, evs =>
    if cancel idx then (⟨0, 0, 0, 0, false, "Cancelled by user"⟩ :: [], .cancelled)
    else
      let raw := rest.take chunkSize
      if raw = [] then ([], .finished evs)
      else
        match send_with_retry MSG_CHUNK (build_chunk_payload idx (encrypt raw)) evs with
        | (_, .error msg) => ([], .failed msg)
        | (_, .ok evs') =>
          let r := chunkLoop encrypt cancel chunkSize totalChunks fileSize
            (idx + 1) iters (rest.drop chunkSize) (bytesSent + raw.length) evs'
          (⟨idx + 1, totalChunks, bytesSent + raw.length, fileSize, false, ""⟩ :: r.1,
           r.2)

/-- `_transfer_worker`: handshake, metadata, chunk loop, DONE, with every
constructed `TransferProgress` in emission order.  Failure anywhere lands in
the catch-all, which emits a snapshot carrying the error string. -/
def transferWorker (encrypt : List Nat → List Nat) (cfgChunk : Nat)
    (content : List Nat) (cancel : Nat → Bool) (evs0 : List RecvEvent) :
    List TransferProgress :=
  let fileSize := content.length
  let chunkSize := chooseChunkSize fileSize cfgChunk
  let totalChunks := totalChunksOf fileSize chunkSize
  match wait_for_ack evs0 with
  | (.error e, _) => [⟨0, 0, 0, 0, false, e⟩]
  | (.ok _, evs1) =>
    match wait_for_ack evs1 with
    | (.error e, _) => [⟨0, 0, 0, 0, false, e⟩]
    | (.ok _, evs2) =>
      match chunkLoop encrypt cancel chunkSize totalChunks fileSize
          0 totalChunks content 0 evs2 with
      | (prs, .cancelled) => prs
      | (prs, .failed msg) => prs ++ [⟨0, 0, 0, 0, false, msg⟩]
      | (prs, .finished evs3) =>
        match wait_for_ack evs3 with
        | (.error e, _) => prs ++ [⟨0, 0, 0, 0, false, e⟩]
        | (.ok _, _) =>
          prs ++ [⟨totalChunks, totalChunks, fileSize, fileSize, true, ""⟩]

theorem sendWithRetryAux_length_le (mt : Nat) (p : List Nat) :
    ∀ fuel evs, (sendWithRetryAux mt p fuel evs).1.length ≤ fuel := by
  intro fuel
  induction fuel with
  | zero => intro evs; simp [sendWithRetryAux]
  | succ n ih =>
    intro evs
    rcases h : wait_for_ack evs with ⟨res, rest⟩
    cases res with
    | ok m => simp [sendWithRetryAux, h]
    | error msg =>
      by_cases hn : n = 0
      · simp [sendWithRetryAux, h, hn]
      · simp only [sendWithRetryAux, h, if_neg hn, List.length_cons]
        exact Nat.succ_le_succ (ih rest)

theorem sendWithRetryAux_all_same (mt : Nat) (p : List Nat) :
    ∀ fuel evs, (sendWithRetryAux mt p fuel evs).1 =
      List.replicate (sendWithRetryAux mt p fuel evs).1.length (mt, p) := by
  intro fuel
  induction fuel with
  | zero => intro evs; simp [sendWithRetryAux]
  | succ n ih =>
    intro evs
    rcases h : wait_for_ack evs with ⟨res, rest⟩
    cases res with
    | ok m => simp [sendWithRetryAux, h]
    | error msg =>
      by_cases hn : n = 0
      · simp [sendWithRetryAux, h, hn]
      · simp only [sendWithRetryAux, h, if_neg hn, List.length_cons,
          List.replicate_succ, List.cons.injEq]
        exact ⟨trivial, ih rest⟩

/-- C3: against a peer that NACKs a chunk twice and ACKs the third attempt,
`_send_with_retry` sends the identical CHUNK frame exactly three times and
succeeds, after which the chunk loop emits exactly one progress snapshot for
that chunk and moves on; no call ever sends more than `MAX_RETRIES = 3`
frames, all sent frames are identical, and a third consecutive failure
escalates the error (which `_transfer_worker` surfaces as a fatal error
snapshot). -/
theorem transmitter_chunk_retry (p : List Nat) (m1 m2 m3 : String)
    (rest : List RecvEvent) :
    (send_with_retry MSG_CHUNK p
        (.ackFrame false m1 :: .ackFrame false m2 :: .ackFrame true m3 :: rest) =
      ([(MSG_CHUNK, p), (MSG_CHUNK, p), (MSG_CHUNK, p)], .ok rest)) ∧
    (∀ evs, (send_with_retry MSG_CHUNK p evs).1.length ≤ 3) ∧
    (∀ evs, (send_with_retry MSG_CHUNK p evs).1 =
      List.replicate (send_with_retry MSG_CHUNK p evs).1.length (MSG_CHUNK, p)) ∧
    (send_with_retry MSG_CHUNK p
        (.ackFrame false m1 :: .ackFrame false m2 :: .ackFrame false m3 :: rest) =
      ([(MSG_CHUNK, p), (MSG_CHUNK, p), (MSG_CHUNK, p)],
       .error ("Receiver NACK: " ++ m3))) ∧
    (∀ (encrypt : List Nat → List Nat) (c T F idx iters bytesSent b : Nat)
       (bs : List Nat) (evs : List RecvEvent),
      chunkLoop encrypt (fun _ => false) (c + 1) T F idx (iters + 1) (b :: bs)
          bytesSent
          (.ackFrame false m1 :: .ackFrame false m2 :: .ackFrame true m3 :: evs) =
        (⟨idx + 1, T, bytesSent + ((b :: bs).take (c + 1)).length, F, false, ""⟩ ::
           (chunkLoop encrypt (fun _ => false) (c + 1) T F (idx + 1) iters
             ((b :: bs).drop (c + 1)) (bytesSent + ((b :: bs).take (c + 1)).length)
             evs).1,
         (chunkLoop encrypt (fun _ => false) (c + 1) T F (idx + 1) iters
           ((b :: bs).drop (c + 1)) (bytesSent + ((b :: bs).take (c + 1)).length)
           evs).2)) := by
  refine ⟨rfl, ?_, ?_, rfl, ?_⟩
  · exact fun evs => sendWithRetryAux_length_le MSG_CHUNK p 3 evs
  · exact fun evs => sendWithRetryAux_all_same MSG_CHUNK p 3 evs
  · intro encrypt c T F idx iters bytesSent b bs evs
    rfl

theorem chunkLoop_done_eq_false (encrypt : List Nat → List Nat)
    (cancel : Nat → Bool) (cs T F : Nat) :
    ∀ iters idx rest bytesSent evs pr,
      pr ∈ (chunkLoop encrypt cancel cs T F idx iters rest bytesSent evs).1 →
      pr.done = false := by
  intro iters
  induction iters with
  | zero =>
    intro idx rest bytesSent evs pr hpr
    simp [chunkLoop] at hpr
  | succ n ih =>
    intro idx rest bytesSent evs pr hpr
    by_cases hc : cancel idx
    · simp [chunkLoop, hc] at hpr
      rw [hpr]
    · by_cases hr : rest.take cs = []
      · simp [chunkLoop, hc, hr] at hpr
      · rcases hs : send_with_retry MSG_CHUNK (build_chunk_payload idx
            (encrypt (rest.take cs))) evs with ⟨sent, res⟩
        cases res with
        | error msg => simp [chunkLoop, hc, hr, hs] at hpr
        | ok evs' =>
          simp only [chunkLoop, if_neg hc, if_neg hr, hs, List.mem_cons] at hpr
          rcases hpr with hpr | hpr
          · rw [hpr]
          · exact ih (idx + 1) (rest.drop cs) (bytesSent + (rest.take cs).length)
              evs' pr hpr

/-- C8: every snapshot the transmitter worker places on the progress queue —
per-chunk, terminal, cancellation and failure alike — never has `done = true`
together with a non-empty error string. -/
theorem progress_done_error_exclusive (encrypt : List Nat → List Nat)
    (cfgChunk : Nat) (content : List Nat) (cancel : Nat → Bool)
    (evs0 : List RecvEvent) :
    ∀ pr ∈ transferWorker encrypt cfgChunk content cancel evs0,
      ¬(pr.done = true ∧ pr.error ≠ "") := by
  intro pr hpr
  rintro ⟨hd, he⟩
  simp only [transferWorker] at hpr
  rcases h1 : wait_for_ack evs0 with ⟨res1, evs1⟩
  simp only [h1] at hpr
  cases res1 with
  | error e =>
    simp at hpr
    rw [hpr] at hd
    simp at hd
  | ok m1 =>
    rcases h2 : wait_for_ack evs1 with ⟨res2, evs2⟩
    simp only [h2] at hpr
    cases res2 with
    | error e =>
      simp at hpr
      rw [hpr] at hd
      simp at hd
    | ok m2 =>
      rcases h3 : chunkLoop encrypt cancel
          (chooseChunkSize content.length cfgChunk)
          (totalChunksOf content.length (chooseChunkSize content.length cfgChunk))
          content.length 0
          (totalChunksOf content.length (chooseChunkSize content.length cfgChunk))
          content 0 evs2 with ⟨prs, ext⟩
      simp only [h3] at hpr
      have hprs : ∀ q ∈ prs, TransferProgress.done q = false := by
        intro q hq
        have hq2 : q ∈ (chunkLoop encrypt cancel
            (chooseChunkSize content.length cfgChunk)
            (totalChunksOf content.length (chooseChunkSize content.length cfgChunk))
            content.length 0
            (totalChunksOf content.length (chooseChunkSize content.length cfgChunk))
            content 0 evs2).1 := by
          rw [h3]
          exact hq
        exact chunkLoop_done_eq_false encrypt cancel _ _ _ _ _ _ _ _ q hq2
      cases ext with
      | cancelled =>
        rw [hprs pr hpr] at hd
        simp at hd
      | failed msg =>
        rw [List.mem_append] at hpr
        rcases hpr with hpr | hpr
        · rw [hprs pr hpr] at hd
          simp at hd
        · simp at hpr
          rw [hpr] at hd
          simp at hd
      | finished evs3 =>
        rcases h4 : wait_for_ack evs3 with ⟨res4, evs4⟩
        simp only [h4] at hpr
        cases res4 with
        | error e =>
          rw [List.mem_append] at hpr
          rcases hpr with hpr | hpr
          · rw [hprs pr hpr] at hd
            simp at hd
          · simp at hpr
            rw [hpr] at hd
            simp at hd
        | ok m4 =>
          rw [List.mem_append] at hpr
          rcases hpr with hpr | hpr
          · rw [hprs pr hpr] at hd
            simp at hd
          · simp at hpr
            rw [hpr] at he
            simp at he

/-- Witness for C8: a two-snapshot run (one chunk, then completion); the
terminal snapshot is in the emitted list and satisfies the exclusivity. -/
theorem progress_done_error_exclusive_witness :
    (⟨1, 1, 1, 1, true, ""⟩ : TransferProgress) ∈
      transferWorker (fun d => d) 65536 [1] (fun _ => false)
        [.ackFrame true "a", .ackFrame true "b", .ackFrame true "c",
         .ackFrame true "d"] ∧
    ¬((⟨1, 1, 1, 1, true, ""⟩ : TransferProgress).done = true ∧
      (⟨1, 1, 1, 1, true, ""⟩ : TransferProgress).error ≠ "") :=
  ⟨by decide,
   progress_done_error_exclusive (fun d => d) 65536 [1] (fun _ => false)
     [.ackFrame true "a", .ackFrame true "b", .ackFrame true "c",
      .ackFrame true "d"] ⟨1, 1, 1, 1, true, ""⟩ (by decide)⟩

/-! ## `src/receiver/network/listener.py` -/

/-- `ReceivedFileInfo`: metadata about the file being received.  The default
`save_path` models `Path()` (the empty relative path). -/
structure ReceivedFileInfo where
  filename : String
  file_size : Nat
  mime_type : String
  chunk_count : Nat
  chunk_size : Nat
  chunks_received : Nat
  save_path : String
  deriving DecidableEq, Repr

/-- The freshly constructed record (`ReceivedFileInfo.__init__`). -/
def ReceivedFileInfo.init : ReceivedFileInfo :=
  ⟨"", 0, "", 0, 0, 0, ""⟩

/-- `ReceivedFileInfo.progress`. -/
def ReceivedFileInfo.progress (i : ReceivedFileInfo) : Rat :=
  if i.chunk_count = 0 then 0
  else (i.chunks_received : Rat) / (i.chunk_count : Rat)

/-- One inbound frame as seen by `_handle_connection` after header parse,
payload read and digest verification: the decoded typed payloads plus the
transport-level failure cases. -/
inductive LMsg where
  | handshake (sender_id : String) (encryption : Bool)
  | fileMeta (filename : String) (file_size : Nat) (mime_type : String)
      (chunk_count : Nat) (chunk_size : Nat)
  | chunk (idx : Nat) (data : List Nat)
  | doneMsg
  | unknown (msgType : Nat)
  | invalidHeader
  | integrityFail
  | connClosed
  deriving DecidableEq, Repr

/-- Observable actions of the connection handler: frames sent back and
callbacks invoked. -/
inductive LAction where
  | ackSent (success : Bool) (message : String)
  | errSent (code : Nat) (reason : String)
  | progressCb (info : ReceivedFileInfo)
  | fileReceivedCb (path : String) (mime : String)
  deriving DecidableEq, Repr

def isMetaMsg : LMsg → Bool
  | .handshake _ _ => false
  | .fileMeta _ _ _ _ _ => true
  | .chunk _ _ => false
  | .doneMsg => false
  | .unknown _ => false
  | .invalidHeader => false
  | .integrityFail => false
  | .connClosed => false

def isChunkMsg : LMsg → Bool
  | .handshake _ _ => false
  | .fileMeta _ _ _ _ _ => false
  | .chunk _ _ => true
  | .doneMsg => false
  | .unknown _ => false
  | .invalidHeader => false
  | .integrityFail => false
  | .connClosed => false

def isHandshakeMsg : LMsg → Bool
  | .handshake _ _ => true
  | .fileMeta _ _ _ _ _ => false
  | .chunk _ _ => false
  | .doneMsg => false
  | .unknown _ => false
  | .invalidHeader => false
  | .integrityFail => false
  | .connClosed => false

/-- The dispatch loop of `_handle_connection`: consume inbound frames until a
terminating condition, returning the actions performed and the record state
after each processed frame.  `decrypt` is the session decrypt oracle; `ex`,
`dir` and `fuel` parameterise `_unique_path`; the open file handle carries the
decrypted writes so far. -/
def handlerRun (decrypt : List Nat → List Nat) (ex : String → Bool)
    (dir : String) (fuel : Nat) :
    List LMsg → ReceivedFileInfo → Option (List (List Nat)) →
    List LAction × List ReceivedFileInfo
  | [], _, _ => ([], [])
  | m :: ms, info, handle =>
    match m with
    | .invalidHeader => ([], [info])
    | .connClosed => ([], [info])
    | .integrityFail => ([.errSent 1 "Integrity check failed"], [info])
    | .handshake _ _ =>
      let r := handlerRun decrypt ex dir fuel ms info handle
      (.ackSent true "Ready" :: r.1, info :: r.2)
    | .fileMeta fn fs mt cc cs =>
      let info' : ReceivedFileInfo :=
        ⟨fn, fs, mt, cc, cs, info.chunks_received, unique_path ex dir fn fuel⟩
      let r := handlerRun decrypt ex dir fuel ms info' (some [])
      (.ackSent true "Metadata accepted" :: r.1, info' :: r.2)
    | .chunk idx data =>
      let dec := decrypt data
      match handle with
      | none => ([.errSent 2 "No file metadata received"], [info])
      | some writes =>
        let info' := { info with chunks_received := info.chunks_received + 1 }
        let r := handlerRun decrypt ex dir fuel ms info' (some (writes ++ [dec]))
        (.progressCb info' ::
           .ackSent true ("Chunk " ++ toString idx ++ " OK") :: r.1,
         info' :: r.2)
    | .doneMsg =>
      ([.ackSent true "File saved",
        .fileReceivedCb info.save_path info.mime_type], [info])
    | .unknown _ => ([], [info])

/-- `_handle_connection` on a fresh connection. -/
def handle_connection (decrypt : List Nat → List Nat) (ex : String → Bool)
    (dir : String) (fuel : Nat) (msgs : List LMsg) :
    List LAction × List ReceivedFileInfo :=
  handlerRun decrypt ex dir fuel msgs ReceivedFileInfo.init none

/-- All states of the received-file record reachable over a connection: the
fresh record followed by the record after each processed frame. -/
def handlerStates (decrypt : List Nat → List Nat) (ex : String → Bool)
    (dir : String) (fuel : Nat) (msgs : List LMsg) : List ReceivedFileInfo :=
  ReceivedFileInfo.init :: (handle_connection decrypt ex dir fuel msgs).2

/-- C7 counterexample: after FILE_META declaring `chunk_count = 1`, a second
CHUNK frame drives `chunks_received` to 2 > 1 — the handler does not enforce
the bound, so the invariant fails for this frame sequence. -/
theorem chunks_received_bound_counterexample :
    ¬(∀ s ∈ handlerStates (fun d => d) (fun _ => false) "recv" 8
        [.fileMeta "f.bin" 2 "application" 1 1, .chunk 0 [1], .chunk 1 [2]],
      s.chunks_received ≤ s.chunk_count) := by
  decide

/-- Number of FILE_META frames in a message list. -/
def countMeta : List LMsg → Nat
  | [] => 0
  | LMsg.fileMeta _ _ _ _ _ :: ms => countMeta ms + 1
  | _ :: ms => countMeta ms

/-- Number of CHUNK frames in a message list. -/
def countChunk : List LMsg → Nat
  | [] => 0
  | LMsg.chunk _ _ :: ms => countChunk ms + 1
  | _ :: ms => countChunk ms

theorem handlerRun_chunk_bound (decrypt : List Nat → List Nat)
    (ex : String → Bool) (dir : String) (fuel : Nat) :
    ∀ (ms : List LMsg) (info : ReceivedFileInfo)
      (handle : Option (List (List Nat))),
      info.chunks_received ≤ info.chunk_count →
      (handle = none → info.chunks_received = 0) →
      (∀ ws, handle = some ws →
        countMeta ms = 0 ∧
        countChunk ms + info.chunks_received ≤ info.chunk_count) →
      (handle = none →
        countMeta ms ≤ 1 ∧
        ∀ fn fs mt cc cs, LMsg.fileMeta fn fs mt cc cs ∈ ms →
          countChunk ms ≤ cc) →
      ∀ s ∈ (handlerRun decrypt ex dir fuel ms info handle).2,
        s.chunks_received ≤ s.chunk_count := by
  intro ms
  induction ms with
  | nil =>
    intro info handle hA hD hE hF s hs
    simp [handlerRun] at hs
  | cons m ms ih =>
    intro info handle hA hD hE hF s hs
    cases m with
    | invalidHeader =>
      simp [handlerRun] at hs
      rw [hs]; exact hA
    | connClosed =>
      simp [handlerRun] at hs
      rw [hs]; exact hA
    | integrityFail =>
      simp [handlerRun] at hs
      rw [hs]; exact hA
    | unknown t =>
      simp [handlerRun] at hs
      rw [hs]; exact hA
    | doneMsg =>
      simp [handlerRun] at hs
      rw [hs]; exact hA
    | handshake sid enc =>
      simp only [handlerRun, List.mem_cons] at hs
      rcases hs with rfl | hs
      · exact hA
      · refine ih info handle hA hD ?_ ?_ s hs
        · intro ws hws
          obtain ⟨hm0, hcb⟩ := hE ws hws
          simp only [countMeta, countChunk] at hm0 hcb
          exact ⟨hm0, hcb⟩
        · intro hn
          obtain ⟨h1, h2⟩ := hF hn
          simp only [countMeta] at h1
          refine ⟨h1, ?_⟩
          intro fn fs mt cc cs hmem
          have h3 := h2 fn fs mt cc cs (List.mem_cons_of_mem _ hmem)
          simp only [countChunk] at h3
          exact h3
    | fileMeta fn fs mt cc cs =>
      cases handle with
      | some ws =>
        exfalso
        have hm0 := (hE ws rfl).1
        simp [countMeta] at hm0
      | none =>
        have hcr0 : info.chunks_received = 0 := hD rfl
        obtain ⟨h1, h2⟩ := hF rfl
        have hmc : countMeta ms = 0 := by
          simp only [countMeta] at h1
          omega
        have hccb : countChunk ms ≤ cc := by
          have h3 := h2 fn fs mt cc cs (List.mem_cons_self _ _)
          simp only [countChunk] at h3
          exact h3
        simp only [handlerRun, List.mem_cons] at hs
        rcases hs with rfl | hs
        · show info.chunks_received ≤ cc
          omega
        · refine ih _ (some []) ?_ ?_ ?_ ?_ s hs
          · show info.chunks_received ≤ cc
            omega
          · intro hcon
            exact absurd hcon (by simp)
          · intro ws hws
            refine ⟨hmc, ?_⟩
            show countChunk ms + info.chunks_received ≤ cc
            omega
          · intro hcon
            exact absurd hcon (by simp)
    | chunk idx data =>
      cases handle with
      | none =>
        simp [handlerRun] at hs
        rw [hs]; exact hA
      | some ws =>
        obtain ⟨hm0, hcb⟩ := hE ws rfl
        simp only [countMeta, countChunk] at hm0 hcb
        simp only [handlerRun, List.mem_cons] at hs
        rcases hs with rfl | hs
        · show info.chunks_received + 1 ≤ info.chunk_count
          omega
        · refine ih _ (some (ws ++ [decrypt data])) ?_ ?_ ?_ ?_ s hs
          · show info.chunks_received + 1 ≤ info.chunk_count
            omega
          · intro hcon
            exact absurd hcon (by simp)
          · intro ws2 hws2
            refine ⟨hm0, ?_⟩
            show countChunk ms + (info.chunks_received + 1) ≤ info.chunk_count
            omega
          · intro hcon
            exact absurd hcon (by simp)

/-- C7 (amended): provided the connection carries at most one FILE_META frame
and no more CHUNK frames than the `chunk_count` any FILE_META declares, every
reachable record state satisfies `chunks_received ≤ chunk_count`.  The handler
itself does not enforce the bound: a sender sending extra CHUNK frames
violates it (see the counterexample). -/
theorem chunks_received_le_chunk_count (decrypt : List Nat → List Nat)
    (ex : String → Bool) (dir : String) (fuel : Nat) (msgs : List LMsg)
    (hmeta : countMeta msgs ≤ 1)
    (hcc : ∀ fn fs mt cc cs, LMsg.fileMeta fn fs mt cc cs ∈ msgs →
      countChunk msgs ≤ cc) :
    ∀ s ∈ handlerStates decrypt ex dir fuel msgs,
      s.chunks_received ≤ s.chunk_count := by
  intro s hs
  simp only [handlerStates, List.mem_cons] at hs
  rcases hs with rfl | hs
  · exact Nat.le_refl 0
  · exact handlerRun_chunk_bound decrypt ex dir fuel msgs ReceivedFileInfo.init
      none (Nat.le_refl 0) (fun _ => rfl) (fun ws h => nomatch h)
      (fun _ => ⟨hmeta, hcc⟩) s hs

/-- Witness for the amended C7 on a conforming two-chunk transfer. -/
theorem chunks_received_le_chunk_count_witness :
    countMeta [LMsg.fileMeta "a.txt" 2 "text" 2 1, LMsg.chunk 0 [1],
      LMsg.chunk 1 [2]] ≤ 1 ∧
    (∀ s ∈ handlerStates (fun d => d) (fun _ => false) "recv" 8
        [LMsg.fileMeta "a.txt" 2 "text" 2 1, LMsg.chunk 0 [1],
         LMsg.chunk 1 [2]],
      s.chunks_received ≤ s.chunk_count) :=
  ⟨by decide,
   chunks_received_le_chunk_count (fun d => d) (fun _ => false) "recv" 8
     [LMsg.fileMeta "a.txt" 2 "text" 2 1, LMsg.chunk 0 [1], LMsg.chunk 1 [2]]
     (by decide)
     (by
       intro fn fs mt cc cs hm
       simp only [List.mem_cons, List.not_mem_nil, or_false] at hm
       rcases hm with h | h | h
       · injection h with h1 h2 h3 h4 h5
         subst h4
         decide
       · simp at h
       · simp at h)⟩

theorem handlerRun_handshakes_then_done (decrypt : List Nat → List Nat)
    (ex : String → Bool) (dir : String) (fuel : Nat) :
    ∀ (pre : List LMsg), (∀ m ∈ pre, isHandshakeMsg m = true) →
    ∀ (rest : List LMsg) (info : ReceivedFileInfo)
      (handle : Option (List (List Nat))),
      handlerRun decrypt ex dir fuel (pre ++ LMsg.doneMsg :: rest) info handle =
        (pre.map (fun _ => LAction.ackSent true "Ready") ++
          [LAction.ackSent true "File saved",
           LAction.fileReceivedCb info.save_path info.mime_type],
         pre.map (fun _ => info) ++ [info]) := by
  intro pre
  induction pre with
  | nil =>
    intro _ rest info handle
    simp [handlerRun]
  | cons m tl ih =>
    intro hh rest info handle
    have hm := hh m (List.mem_cons_self m tl)
    cases m with
    | handshake sid enc =>
      have htl : ∀ x ∈ tl, isHandshakeMsg x = true :=
        fun x hx => hh x (List.mem_cons_of_mem _ hx)
      simp only [List.cons_append, handlerRun, List.append_eq]
      rw [ih htl rest info handle]
      simp
    | fileMeta fn fs mt cc cs => simp [isHandshakeMsg] at hm
    | chunk idx data => simp [isHandshakeMsg] at hm
    | doneMsg => simp [isHandshakeMsg] at hm
    | unknown t => simp [isHandshakeMsg] at hm
    | invalidHeader => simp [isHandshakeMsg] at hm
    | integrityFail => simp [isHandshakeMsg] at hm
    | connClosed => simp [isHandshakeMsg] at hm

/-- C10: a well-formed DONE frame arriving (after any number of handshakes)
before any FILE_META still gets a success ACK, still fires `on_file_received`
with the record defaults — empty save path (`Path()`) and empty mime type —
and terminates the connection (frames after DONE are not processed). -/
theorem done_before_meta_callback (decrypt : List Nat → List Nat)
    (ex : String → Bool) (dir : String) (fuel : Nat) (pre rest : List LMsg)
    (hpre : ∀ m ∈ pre, isHandshakeMsg m = true) :
    handle_connection decrypt ex dir fuel (pre ++ LMsg.doneMsg :: rest) =
      (pre.map (fun _ => LAction.ackSent true "Ready") ++
        [LAction.ackSent true "File saved", LAction.fileReceivedCb "" ""],
       pre.map (fun _ => ReceivedFileInfo.init) ++ [ReceivedFileInfo.init]) := by
  unfold handle_connection
  rw [handlerRun_handshakes_then_done decrypt ex dir fuel pre hpre rest
    ReceivedFileInfo.init none]
  rfl

/-- Witness for C10: one handshake, then DONE, then a stray CHUNK that is
never processed. -/
theorem done_before_meta_callback_witness :
    (∀ m ∈ [LMsg.handshake "sender" false], isHandshakeMsg m = true) ∧
    handle_connection (fun d => d) (fun _ => false) "recv" 8
        ([LMsg.handshake "sender" false] ++ LMsg.doneMsg :: [LMsg.chunk 0 [1]]) =
      ([LMsg.handshake "sender" false].map
          (fun _ => LAction.ackSent true "Ready") ++
        [LAction.ackSent true "File saved", LAction.fileReceivedCb "" ""],
       [LMsg.handshake "sender" false].map (fun _ => ReceivedFileInfo.init) ++
         [ReceivedFileInfo.init]) :=
  ⟨by decide,
   done_before_meta_callback (fun d => d) (fun _ => false) "recv" 8
     [LMsg.handshake "sender" false] [LMsg.chunk 0 [1]] (by decide)⟩

end DevVisionFlow
